import Mathlib

/-
Verification development for the APITable MCP server
(src/index.ts and the ApitableService class).

The TypeScript sources are shallowly embedded: JavaScript runtime values are
modelled by the inductive type JsValue, JavaScript objects by insertion-ordered
association lists, thrown exceptions by Except, and each MCP tool handler by a
total Lean function from its (already transport-validated) arguments and the
outcomes of its outbound remote calls to the response it returns.
-/

set_option autoImplicit false

/-- Model of a JavaScript runtime value as it occurs in this code base:
undefined, null, NaN, strings, (integer) numbers, booleans, arrays and plain
objects.  Objects are insertion-ordered association lists, matching the
enumeration order of Object.entries used by the source. -/
inductive JsValue where
  | undef
  | null
  | nan
  | str (s : String)
  | num (n : Int)
  | bool (b : Bool)
  | arr (elems : List JsValue)
  | obj (fields : List (String × JsValue))

mutual

/-- Model of the JavaScript String() conversion (and Array.prototype.toString,
which joins the element strings with commas, rendering null and undefined
elements as empty strings).  Plain objects render as the usual
object-to-string placeholder. -/
def jsToString : JsValue → String
  | .undef => "undefined"
  | .null => "null"
  | .nan => "NaN"
  | .str s => s
  | .num n => toString n
  | .bool b => if b then "true" else "false"
  | .arr xs => String.intercalate "," (jsArrElemStrings xs)
  | .obj _ => "[object Object]"

/-- Element strings used by Array.prototype.toString: null and undefined
become empty strings, every other element is converted with String(). -/
def jsArrElemStrings : List JsValue → List String
  | [] => []
  | .undef :: xs => "" :: jsArrElemStrings xs
  | .null :: xs => "" :: jsArrElemStrings xs
  | x :: xs => jsToString x :: jsArrElemStrings xs

end

/-- Model of the JavaScript Boolean() conversion (truthiness). -/
def jsToBool : JsValue → Bool
  | .undef => false
  | .null => false
  | .nan => false
  | .str s => s ≠ ""
  | .num n => n ≠ 0
  | .bool b => b
  | .arr _ => true
  | .obj _ => true

/-- Model of ToNumber on strings, restricted to optionally signed decimal
integer numerals (the only numeric strings the claims exercise); a blank
string converts to 0, anything unparseable to NaN (none). -/
def digitsToNat (l : List Char) : Nat :=
  l.foldl (fun a c => a * 10 + (c.toNat - 48)) 0

def parseIntegerNumeral (s : String) : Option Int :=
  let t := ((s.toList.dropWhile Char.isWhitespace).reverse.dropWhile Char.isWhitespace).reverse
  if t = [] then some 0
  else
    let core :=
      match t with
      | '-' :: rest => (true, rest)
      | '+' :: rest => (false, rest)
      | l => (false, l)
    if core.2 ≠ [] ∧ core.2.all Char.isDigit then
      let n : Int := Int.ofNat (digitsToNat core.2)
      some (if core.1 then -n else n)
    else none

/-- Model of the JavaScript Number() conversion.  Arrays and objects go
through their string rendering (ToPrimitive via toString), matching JS for
the shapes this code can see. -/
def jsToNumber : JsValue → JsValue
  | .num n => .num n
  | .nan => .nan
  | .bool b => .num (if b then 1 else 0)
  | .null => .num 0
  | .undef => .nan
  | .str s =>
    match parseIntegerNumeral s with
    | some n => .num n
    | none => .nan
  | .arr xs =>
    match parseIntegerNumeral (jsToString (.arr xs)) with
    | some n => .num n
    | none => .nan
  | .obj fs =>
    match parseIntegerNumeral (jsToString (.obj fs)) with
    | some n => .num n
    | none => .nan

/-- Uppercase hexadecimal digit for percent encoding and unicode escapes. -/
def hexDigitChar (n : Nat) : Char :=
  if n < 10 then Char.ofNat (48 + n) else Char.ofNat (55 + n)

/-- UTF-8 byte sequence of a unicode code point. -/
def utf8Bytes (n : Nat) : List Nat :=
  if n < 0x80 then [n]
  else if n < 0x800 then [0xC0 + n / 0x40, 0x80 + n % 0x40]
  else if n < 0x10000 then
    [0xE0 + n / 0x1000, 0x80 + (n / 0x40) % 0x40, 0x80 + n % 0x40]
  else
    [0xF0 + n / 0x40000, 0x80 + (n / 0x1000) % 0x40, 0x80 + (n / 0x40) % 0x40,
      0x80 + n % 0x40]

/-- Percent encoding of one byte, uppercase as produced by the JS encoder. -/
def percentEncodeByte (b : Nat) : String :=
  String.mk ['%', hexDigitChar (b / 16), hexDigitChar (b % 16)]

/-- The characters the JS encodeURIComponent leaves unescaped besides
alphanumerics (the apostrophe is written by code point). -/
def uriUnreservedMarks : List Char :=
  ['-', '_', '.', '!', '~', '*', Char.ofNat 39, '(', ')']

/-- Model of the JavaScript encodeURIComponent builtin. -/
def encodeURIComponent (s : String) : String :=
  String.join (s.toList.map (fun c =>
    if c.isAlphanum ∨ c ∈ uriUnreservedMarks then String.singleton c
    else String.join ((utf8Bytes c.toNat).map percentEncodeByte)))

/-- JSON string escaping for one character, as JSON.stringify performs it. -/
def jsonEscapeChar (c : Char) : String :=
  if c = Char.ofNat 34 then String.mk [Char.ofNat 92, Char.ofNat 34]
  else if c = Char.ofNat 92 then String.mk [Char.ofNat 92, Char.ofNat 92]
  else if c = Char.ofNat 10 then "\\n"
  else if c = Char.ofNat 13 then "\\r"
  else if c = Char.ofNat 9 then "\\t"
  else if c = Char.ofNat 8 then "\\b"
  else if c = Char.ofNat 12 then "\\f"
  else if c.toNat < 32 then
    "\\u00" ++ String.mk [hexDigitChar (c.toNat / 16), hexDigitChar (c.toNat % 16)]
  else String.singleton c

/-- Quoted JSON string literal. -/
def jsonQuote (s : String) : String :=
  "\"" ++ String.join (s.toList.map jsonEscapeChar) ++ "\""

mutual

/-- Model of JSON.stringify on a value in array or object position
(undefined and NaN serialize as null there; in object members an undefined
value drops the member, handled in jsonStringifyMembers). -/
def jsonStringify : JsValue → String
  | .undef => "null"
  | .null => "null"
  | .nan => "null"
  | .str s => jsonQuote s
  | .num n => toString n
  | .bool b => if b then "true" else "false"
  | .arr xs => "[" ++ String.intercalate "," (jsonStringifyElems xs) ++ "]"
  | .obj fs => "\x7b" ++ String.intercalate "," (jsonStringifyMembers fs) ++ "\x7d"

/-- Serialized array elements. -/
def jsonStringifyElems : List JsValue → List String
  | [] => []
  | x :: xs => jsonStringify x :: jsonStringifyElems xs

/-- Serialized object members; members holding undefined are dropped, as
JSON.stringify does. -/
def jsonStringifyMembers : List (String × JsValue) → List String
  | [] => []
  | (_, .undef) :: rest => jsonStringifyMembers rest
  | (k, v) :: rest => (jsonQuote k ++ ":" ++ jsonStringify v) :: jsonStringifyMembers rest

end

/-- JavaScript object property assignment o[k] = v on the association-list
model: an existing key is overwritten in place, a new key is appended. -/
def jsObjectSet (o : List (String × JsValue)) (k : String) (v : JsValue) :
    List (String × JsValue) :=
  if o.any (fun kv => kv.1 = k) then
    o.map (fun kv => if kv.1 = k then (k, v) else kv)
  else o ++ [(k, v)]

/-- Property read o[k] that mirrors the checks of the form
o[k] !== undefined used by the source: absent keys and keys explicitly
holding undefined both yield none. -/
def jsGetDefined (o : List (String × JsValue)) (k : String) : Option JsValue :=
  match o.find? (fun kv => kv.1 = k) with
  | none => none
  | some kv =>
    match kv.2 with
    | .undef => none
    | v => some v

/-- Model of the JavaScript expression m || fallback applied to an optional
message field: a missing or empty message selects the fallback. -/
def jsOrMessage (m : Option String) (fallback : String) : String :=
  match m with
  | some s => if s = "" then fallback else s
  | none => fallback

/-- Missing-required-parameter test of ApitableService.buildQueryString: the
source compares with strict equality against undefined, null and the empty
string. -/
def requiredParamMissing (v : Option JsValue) : Bool :=
  match v with
  | none => true
  | some .undef => true
  | some .null => true
  | some (.str "") => true
  | some _ => false

/-- One iteration of the query-building loop of
ApitableService.buildQueryString: undefined and null values are skipped,
arrays are emitted only when non-empty as one JSON-encoded URL-encoded
value, other objects are JSON-encoded, and remaining primitives are emitted
unless they stringify from the empty string (the strict comparison
value !== empty string only excludes the empty string itself). -/
def queryEntry (key : String) (value : JsValue) : Option String :=
  match value with
  | .undef => none
  | .null => none
  | .arr xs =>
    if xs.length > 0 then
      some (encodeURIComponent key ++ "=" ++ encodeURIComponent (jsonStringify (.arr xs)))
    else none
  | .obj fs =>
    some (encodeURIComponent key ++ "=" ++ encodeURIComponent (jsonStringify (.obj fs)))
  | .str s =>
    if s = "" then none
    else some (encodeURIComponent key ++ "=" ++ encodeURIComponent s)
  | v =>
    some (encodeURIComponent key ++ "=" ++ encodeURIComponent (jsToString v))

/-- Embedding of ApitableService.buildQueryString.  params is the entry list
of the argument object in insertion order; a missing required parameter
throws, modelled by Except.error. -/
def buildQueryString (params : List (String × JsValue)) (requiredParams : List String) :
    Except String String :=
  match requiredParams.find? (fun p =>
      requiredParamMissing ((params.find? (fun kv => kv.1 = p)).map Prod.snd)) with
  | some p => .error ("Query parameter " ++ p ++ " is required.")
  | none =>
    let queryParams := params.filterMap (fun kv => queryEntry kv.1 kv.2)
    .ok (if queryParams.length > 0 then "?" ++ String.intercalate "&" queryParams else "")

/-- Option of a select field, as in types.ts (SelectFieldOptionVO). -/
structure SelectFieldOptionVO where
  id : String
  name : String

/-- Type-specific field property metadata: options for select fields, max for
rating fields; absence of a key is modelled by none. -/
structure FieldPropertyVO where
  options : Option (List SelectFieldOptionVO)
  max : Option Int

/-- Field schema of one datasheet column (FieldSchemaVO): a name, a type tag
and optional property metadata. -/
structure FieldSchemaVO where
  name : String
  type : String
  property : Option FieldPropertyVO

/-- Embedding of ApitableService._getKeywordByFieldType.  Note that the first
string-group membership test of the source lists the tag Email with a
trailing space character. -/
def _getKeywordByFieldType (field : FieldSchemaVO) : Option JsValue :=
  if field.type ∈ ["Text", "SingleText", "Email ", "URL", "Phone"] then
    some (.obj [("type", .str "string")])
  else if field.type = "Checkbox" then
    some (.obj [("type", .str "boolean")])
  else if field.type ∈ ["Number", "Currency", "Percent"] then
    some (.obj [("type", .str "number")])
  else if field.type = "Rating" then
    let description :=
      match field.property with
      | some p =>
        match p.max with
        | some m =>
          "Rating from 0 to " ++ toString m ++ ". if over " ++ toString m ++
            ", reduce to " ++ toString m
        | none => ""
      | none => ""
    some (.obj [("type", .str "integer"), ("description", .str description)])
  else if field.type = "DateTime" then
    some (.obj [("type", .str "string"),
      ("description", .str "ISO 8601 date-time format, with UTC timezone. Example: 2022-01-01T12:00:00Z")])
  else if field.type = "SingleSelect" then
    some (.obj [("type", .str "string"),
      ("enum",
        match field.property.bind FieldPropertyVO.options with
        | some opts => .arr (opts.map (fun o => .str o.name))
        | none => .undef),
      ("description", .str "Single selection from the provided options. If no options are available, return a null value.")])
  else if field.type = "MultiSelect" then
    match field.property.bind FieldPropertyVO.options with
    | some opts =>
      some (.obj [("type", .str "array"),
        ("items", .obj [("type", .str "string"),
          ("enum", .arr (opts.map (fun o => .str o.name))),
          ("description", .str "one or more selections")])])
    | none =>
      -- a MultiSelect field without options falls through the remaining
      -- branches of the source (its tag matches none of them) and reaches
      -- the final return null
      none
  else if field.type = "Attachment" then
    some (.obj [("type", .str "array"),
      ("items", .obj [("properties", .obj [
        ("token", .obj [("type", .str "string")]),
        ("name", .obj [("type", .str "string")]),
        ("mimeType", .obj [("type", .str "string")]),
        ("url", .obj [("type", .str "string")]),
        ("size", .obj [("type", .str "number")]),
        ("height", .obj [("type", .str "number"), ("nullable", .bool true)]),
        ("width", .obj [("type", .str "number"), ("nullable", .bool true)])])])])
  else none

/-- The inner object schema assembled by getFieldsJSONSchema. -/
structure FieldsObjectSchema where
  type : String
  properties : List (String × JsValue)
  additionalProperties : Bool
  required : List String

/-- The wrapped JSON-schema document (FieldFormatJSONSchema of types.ts). -/
structure FieldFormatJSONSchema where
  type : String
  json_schema_name : String
  schema : FieldsObjectSchema
  strict : Bool

/-- One iteration of the forEach loop of
ApitableService.getFieldsJSONSchema: a field with a fragment is written into
properties and its name appended to required; a field without one is
skipped. -/
def schemaFold (acc : List (String × JsValue) × List String) (field : FieldSchemaVO) :
    List (String × JsValue) × List String :=
  match _getKeywordByFieldType field with
  | some kw => (jsObjectSet acc.1 field.name kw, acc.2 ++ [field.name])
  | none => acc

/-- Embedding of ApitableService.getFieldsJSONSchema. -/
def getFieldsJSONSchema (fields : List FieldSchemaVO) : FieldFormatJSONSchema :=
  let res := fields.foldl schemaFold ([], [])
  { type := "json_schema"
    json_schema_name := "fields_in_datasheet"
    schema :=
      { type := "object"
        properties := res.1
        additionalProperties := false
        required := res.2 }
    strict := true }

/-- Splitting of a character list on a separator character, with the
semantics of the JavaScript String.prototype.split for a one-character
separator: the result always has at least one (possibly empty) piece, and a
separator at either end contributes an empty piece. -/
def splitCharList (c : Char) : List Char → List (List Char)
  | [] => [[]]
  | x :: xs =>
    let r := splitCharList c xs
    if x = c then [] :: r
    else
      match r with
      | [] => [[x]]
      | h :: t => (x :: h) :: t

/-- JavaScript split of a string on a one-character separator. -/
def jsSplitOnChar (c : Char) (s : String) : List String :=
  (splitCharList c s.toList).map String.mk

/-- Decimal digit-string parser used by the date model. -/
def parseDigits (s : String) : Option Nat :=
  if s.toList ≠ [] ∧ s.toList.all Char.isDigit then
    some (digitsToNat s.toList)
  else none

/-- Gregorian leap-year test. -/
def isLeapYear (y : Nat) : Bool :=
  (y % 4 = 0 ∧ y % 100 ≠ 0) ∨ y % 400 = 0

/-- Number of days of a month, as the JS Date parser validates them. -/
def daysInMonth (y m : Nat) : Nat :=
  if m = 2 then (if isLeapYear y then 29 else 28)
  else if m ∈ [4, 6, 9, 11] then 30
  else 31

/-- Model of the JavaScript expression new Date(s).toISOString(), restricted
to the date-only form YYYY-MM-DD of the ECMAScript date-time string format
(the only form the claims exercise).  A date-only string is interpreted as
UTC midnight; an invalid date makes toISOString throw, modelled by none. -/
def jsDateToISOString (s : String) : Option String :=
  match jsSplitOnChar '-' s with
  | [ys, ms, ds] =>
    if ys.length = 4 ∧ ms.length = 2 ∧ ds.length = 2 then
      match parseDigits ys, parseDigits ms, parseDigits ds with
      | some y, some m, some d =>
        if 1 ≤ m ∧ m ≤ 12 ∧ 1 ≤ d ∧ d ≤ daysInMonth y m then
          some (ys ++ "-" ++ ms ++ "-" ++ ds ++ "T00:00:00.000Z")
        else none
      | _, _, _ => none
    else none
  | _ => none

/-- Character pattern of an ISO-8601 UTC date-time string of the exact shape
toISOString produces: YYYY-MM-DDTHH:MM:SS.mmmZ. -/
def iso8601UTCPattern : List (Char → Bool) :=
  [Char.isDigit, Char.isDigit, Char.isDigit, Char.isDigit, (· = '-'),
    Char.isDigit, Char.isDigit, (· = '-'), Char.isDigit, Char.isDigit,
    (· = 'T'), Char.isDigit, Char.isDigit, (· = ':'), Char.isDigit,
    Char.isDigit, (· = ':'), Char.isDigit, Char.isDigit, (· = '.'),
    Char.isDigit, Char.isDigit, Char.isDigit, (· = 'Z')]

/-- Decides whether a string has the shape of an ISO-8601 UTC date-time
string as produced by toISOString. -/
def isIso8601UTC (s : String) : Bool :=
  s.toList.length = iso8601UTCPattern.length ∧
    (s.toList.zip iso8601UTCPattern).all (fun cp => cp.2 cp.1)

/-- Embedding of ApitableService._getCellValueByFieldType.  A thrown
exception (toISOString on an invalid date) is modelled by Except.error; every
other path returns a value, with JsValue.null for unsupported cases exactly
where the source returns null. -/
def _getCellValueByFieldType (field : FieldSchemaVO) (fieldValue : JsValue) :
    Except String JsValue :=
  if field.type = "Text" ∨ field.type = "SingleText" ∨ field.type = "Email" ∨
      field.type = "URL" ∨ field.type = "Phone" ∨ field.type = "SingleSelect" then
    .ok (.str (jsToString fieldValue))
  else if field.type = "Checkbox" then
    .ok (.bool (jsToBool fieldValue))
  else if field.type ∈ ["Number", "Currency", "Percent", "Rating"] then
    .ok (jsToNumber fieldValue)
  else if field.type = "DateTime" then
    -- the source guards this branch with a conjunctive typeof string test; a
    -- DateTime field with a non-string value falls past every remaining
    -- branch to return null, which the wildcard case below reproduces
    match fieldValue with
    | .str s =>
      if s ≠ "" then
        match jsDateToISOString s with
        | some iso => .ok (.str iso)
        | none => .error "Invalid time value"
      else .ok .null
    | _ => .ok .null
  else if field.type = "MultiSelect" then
    let opts := (field.property.bind FieldPropertyVO.options).getD []
    match fieldValue with
    | .arr xs =>
      let validOptionIds := xs.filterMap (fun elem =>
        match elem with
        | .str optionName =>
          (opts.find? (fun o => o.name = optionName)).map SelectFieldOptionVO.id
        | _ => none)
      .ok (.arr (validOptionIds.map JsValue.str))
    | .str s =>
      match opts.find? (fun o => o.name = s) with
      | some o => .ok (.arr [.str o.id])
      | none => .ok (.arr [])
    | _ => .ok .null
  else .ok .null

/-- Embedding of ApitableService.convertFieldValuesToCellFormat: walk the
schema in order, coerce the supplied raw value of each named field, and keep
the cell only when the coerced value is not null. -/
def convertFieldValuesToCellFormat (fieldsSchema : List FieldSchemaVO)
    (fieldValues : List (String × JsValue)) : Except String (List (String × JsValue)) :=
  fieldsSchema.foldlM (fun cells fs =>
    match jsGetDefined fieldValues fs.name with
    | none => pure cells
    | some v => do
      let cellValue ← _getCellValueByFieldType fs v
      match cellValue with
      | .null => pure cells
      | cv => pure (jsObjectSet cells fs.name cv)) []

/-- Derivation of the upload file name from the URL path in
ApitableService.uploadFileToSpace: the final segment of pathname split on
slashes, with the time-stamped default applying only when Array.pop yields
undefined (an empty pop result, as JS produces for a bare slash path, is
kept as is because the nullish-coalescing operator only reacts to undefined
and null). -/
def deriveFileNameFromPath (pathname : String) (timestampMs : Nat) : String :=
  match (jsSplitOnChar '/' pathname).getLast? with
  | some seg => seg
  | none => "file_" ++ toString timestampMs

/-- File-name selection of uploadFileToSpace: a missing or empty file_name
argument (the source tests falsiness) triggers derivation from the path. -/
def uploadFileName (file_name : Option String) (pathname : String) (timestampMs : Nat) :
    String :=
  match file_name with
  | some s => if s = "" then deriveFileNameFromPath pathname timestampMs else s
  | none => deriveFileNameFromPath pathname timestampMs

/-- Decoded remote response envelope (ResponseVO of types.ts): a success
marker, an optional message and the payload. -/
structure ResponseVO (T : Type) where
  success : Bool
  message : Option String
  data : T

/-- Result of one tool action as handed back to the MCP transport
(CallToolResult): the source serializes the body object with JSON.stringify
into a single text content item; the embedding keeps the body value itself,
together with the isError flag. -/
structure CallToolResult where
  body : JsValue
  isError : Bool

/-- Embedding of formatToolResponse of src/index.ts. -/
def formatToolResponse (data : JsValue) (isError : Bool) : CallToolResult :=
  { body := data, isError := isError }

/-- The error envelope every handler produces, both for caught thrown errors
and for decoded success:false responses: a body holding success false and a
message, with the isError flag set. -/
def errResp (message : String) : CallToolResult :=
  formatToolResponse (.obj [("success", .bool false), ("message", .str message)]) true

/-- The success envelope every handler produces: success true plus a data
member, with the isError flag cleared. -/
def okResp (data : JsValue) : CallToolResult :=
  formatToolResponse (.obj [("success", .bool true), ("data", data)]) false

/-- Outcome of one outbound remote call as seen by a handler: a transport
failure or thrown error (Except.error carrying the error message), or a
decoded response envelope. -/
def RemoteOutcome (T : Type) : Type :=
  Except String (ResponseVO T)

/-- A remote outcome counts as failed when the call threw or when the
decoded envelope carries success false. -/
def remoteOutcomeFailed {T : Type} : RemoteOutcome T → Prop
  | .error _ => True
  | .ok r => r.success = false

/-- Rendering of a whole decoded response envelope back into a JS object, as
the upload handler embeds the complete response under its data member. -/
def responseVOToJs (r : ResponseVO JsValue) : JsValue :=
  .obj (("success", .bool r.success) ::
    (match r.message with
     | some m => [("message", .str m)]
     | none => []) ++ [("data", r.data)])

/-- Embedding of the list_spaces tool handler of src/index.ts, with the
single outbound GET /spaces call represented by its outcome. -/
def listSpacesHandler (outcome : RemoteOutcome JsValue) : CallToolResult :=
  match outcome with
  | .error e => errResp e
  | .ok result =>
    if result.success = false then
      errResp (jsOrMessage result.message "Failed to fetch spaces")
    else
      okResp (.obj [("spaces", result.data),
        ("definitions", .obj [
          ("id", .str "The workspace ID"),
          ("name", .str "The name of the workspace"),
          ("isAdmin", .str "Indicates if the user has admin permissions in the workspace")])])

/-- Node renaming step of the search_nodes handler: destructuring removes the
id key, the remaining properties keep their order, and node_id is assigned
the old id value.  Destructuring null or undefined throws; nodes arriving
from the API are JSON objects, and other primitives destructure to an object
holding only node_id. -/
def renameNode (node : JsValue) : Except String JsValue :=
  match node with
  | .obj fs =>
    let rest := fs.filter (fun kv => kv.1 ≠ "id")
    let idv := ((fs.find? (fun kv => kv.1 = "id")).map Prod.snd).getD .undef
    .ok (.obj (jsObjectSet rest "node_id" idv))
  | .null => .error "Cannot destructure property id of node as it is null."
  | .undef => .error "Cannot destructure property id of node as it is undefined."
  | _ => .ok (.obj [("node_id", .undef)])

/-- Renaming of the whole node list; a thrown destructuring error aborts the
loop and is caught at the handler boundary. -/
def renameNodes (nodes : List JsValue) : Except String (List JsValue) :=
  nodes.mapM renameNode

/-- Embedding of the search_nodes tool handler of src/index.ts. -/
def searchNodesHandler (space_id node_type : String) (query : Option String)
    (outcome : RemoteOutcome (List JsValue)) : CallToolResult :=
  if space_id = "" ∨ node_type = "" then
    errResp "space_id and node_type are required."
  else
    match buildQueryString
        [("type", .str node_type),
         ("query", match query with | some q => .str q | none => .undef)] [] with
    | .error e => errResp e
    | .ok _queryStr =>
      match outcome with
      | .error e => errResp e
      | .ok result =>
        if result.success = false then
          errResp (jsOrMessage result.message "Failed to search nodes")
        else
          match renameNodes result.data with
          | .error e => errResp e
          | .ok nodes => okResp (.arr nodes)

/-- Arguments of the list_records tool as declared to the transport; the
declared but unused filterByFormula parameter is carried explicitly. -/
structure ListRecordsArgs where
  node_id : String
  sort : JsValue
  pageNum : JsValue
  pageSize : JsValue
  fields : JsValue
  viewId : JsValue
  filterByFormula : JsValue

/-- Query string the list_records handler builds: exactly the five
destructured optional parameters plus the forced cellFormat and fieldKey
entries, in the insertion order of the source object literal. -/
def listRecordsQuery (a : ListRecordsArgs) : Except String String :=
  buildQueryString
    [("sort", a.sort), ("pageNum", a.pageNum), ("pageSize", a.pageSize),
     ("fields", a.fields), ("viewId", a.viewId),
     ("cellFormat", .str "string"), ("fieldKey", .str "name")] []

/-- Endpoint the list_records handler requests. -/
def listRecordsEndpoint (a : ListRecordsArgs) : Except String String :=
  (listRecordsQuery a).map (fun qs => "/datasheets/" ++ a.node_id ++ "/records" ++ qs)

/-- Embedding of the list_records tool handler of src/index.ts. -/
def listRecordsHandler (a : ListRecordsArgs) (outcome : RemoteOutcome JsValue) :
    CallToolResult :=
  if a.node_id = "" then errResp "datasheet ID is required."
  else
    match listRecordsEndpoint a with
    | .error e => errResp e
    | .ok _endpoint =>
      match outcome with
      | .error e => errResp e
      | .ok result =>
        if result.success = false then
          errResp (jsOrMessage result.message "Failed to list records")
        else okResp result.data

/-- Rendering of the generated JSON-schema document into the JS object shape
the get_fields_schema handler returns as data. -/
def fieldFormatJSONSchemaToJs (d : FieldFormatJSONSchema) : JsValue :=
  .obj [("type", .str d.type),
    ("json_schema", .obj [
      ("name", .str d.json_schema_name),
      ("schema", .obj [
        ("type", .str d.schema.type),
        ("properties", .obj d.schema.properties),
        ("additionalProperties", .bool d.schema.additionalProperties),
        ("required", .arr (d.schema.required.map JsValue.str))]),
      ("strict", .bool d.strict)])]

/-- Embedding of the get_fields_schema tool handler of src/index.ts; the
fields array of the decoded schema response is the outcome payload. -/
def getFieldsSchemaHandler (node_id : String)
    (outcome : RemoteOutcome (List FieldSchemaVO)) : CallToolResult :=
  if node_id = "" then errResp "The datasheet ID (node_id) is required."
  else
    match outcome with
    | .error e => errResp e
    | .ok result =>
      if result.success = false then
        errResp (jsOrMessage result.message "Failed to fetch datasheet fields schema")
      else okResp (fieldFormatJSONSchemaToJs (getFieldsJSONSchema result.data))

/-- Tags for the outbound remote calls the create_record handler can issue,
recorded in the order they are made. -/
inductive RemoteCall where
  | fetchSchema (node_id : String)
  | createRecord (node_id : String) (cells : List (String × JsValue))

/-- Embedding of the create_record tool handler of src/index.ts, returning
the tool response together with the list of remote calls actually issued.
The attachments overlay writes each schema field whose name appears in
attachments_fields directly into the cell map, uncoerced. -/
def createRecordHandler (node_id : String)
    (fields : Option (List (String × JsValue)))
    (attachments_fields : Option (List (String × JsValue)))
    (schemaOutcome : RemoteOutcome (List FieldSchemaVO))
    (writeOutcome : RemoteOutcome JsValue) : CallToolResult × List RemoteCall :=
  if node_id = "" then
    (errResp "The datasheet ID (node_id) is required.", [])
  else if fields.isNone ∧ attachments_fields.isNone then
    (errResp "At least one of fields or attachments_fields must be provided.", [])
  else
    let calls0 := [RemoteCall.fetchSchema node_id]
    match schemaOutcome with
    | .error e => (errResp e, calls0)
    | .ok getFieldsResult =>
      if getFieldsResult.success = false then
        (errResp (jsOrMessage getFieldsResult.message "Failed to fetch datasheet fields schema"), calls0)
      else
        let fieldsSchema := getFieldsResult.data
        let converted :=
          match fields with
          | some fv => convertFieldValuesToCellFormat fieldsSchema fv
          | none => .ok []
        match converted with
        | .error e => (errResp e, calls0)
        | .ok cells0 =>
          let cells :=
            match attachments_fields with
            | some att =>
              fieldsSchema.foldl (fun acc fs =>
                match jsGetDefined att fs.name with
                | some v => jsObjectSet acc fs.name v
                | none => acc) cells0
            | none => cells0
          let calls1 := calls0 ++ [RemoteCall.createRecord node_id cells]
          match writeOutcome with
          | .error e => (errResp e, calls1)
          | .ok createRecordResult =>
            if createRecordResult.success = false then
              (errResp (jsOrMessage createRecordResult.message "Failed to create record"), calls1)
            else
              let records :=
                match createRecordResult.data with
                | .obj fs => ((fs.find? (fun kv => kv.1 = "records")).map Prod.snd).getD .undef
                | _ => .undef
              (okResp (.obj [("records", records)]), calls1)

/-- Embedding of the upload_attachment_via_url tool handler of src/index.ts;
the whole delegated uploadFileToSpace call (file fetch, form construction
and POST) is represented by its outcome. -/
def uploadAttachmentHandler (node_id attachment_url : String)
    (_attachment_name : Option String) (outcome : RemoteOutcome JsValue) :
    CallToolResult :=
  if node_id = "" then errResp "The datasheet ID (node_id) is required."
  else if attachment_url = "" then errResp "The attachment URL is required."
  else
    match outcome with
    | .error e => errResp e
    | .ok result =>
      if result.success = false then
        errResp (jsOrMessage result.message "Failed to upload attachment")
      else okResp (responseVOToJs result)

/-- A field schema carrying the ordinary Email type tag. -/
def emailField : FieldSchemaVO :=
  { name := "contact", type := "Email", property := none }

/-- The supported field-type enumeration exactly as the specification states
it (data-model section and the fragment table). -/
def specSupportedFieldTypes : List String :=
  ["Text", "SingleText", "Email", "URL", "Phone", "Checkbox", "Number",
    "Currency", "Percent", "Rating", "DateTime", "SingleSelect",
    "MultiSelect", "Attachment"]

/-- A DateTime field schema. -/
def dateTimeField : FieldSchemaVO :=
  { name := "When", type := "DateTime", property := none }

/-- A SingleSelect field whose single option has distinct id and name. -/
def singleSelectField : FieldSchemaVO :=
  { name := "Color", type := "SingleSelect",
    property := some { options := some [{ id := "opt1", name := "Red" }], max := none } }

/-- A MultiSelect field with the two options of the specification example. -/
def multiSelectField : FieldSchemaVO :=
  { name := "Colors", type := "MultiSelect",
    property := some
      { options := some [{ id := "o1", name := "Red" }, { id := "o2", name := "Blue" }],
        max := none } }

/-- A tool result that is exactly an error envelope: isError set and a body
holding success false plus a message, with no data member. -/
def isErrorEnvelope (r : CallToolResult) : Prop :=
  ∃ m, r = errResp m

/-- A tool result that is exactly a success envelope: isError cleared and a
body holding success true plus a data member. -/
def isSuccessEnvelope (r : CallToolResult) : Prop :=
  ∃ d, r = okResp d

/-- C1: the claim states that a field whose type tag is Email receives the
string fragment and is included in both properties and required of the
generated schema.  The source compares against the tag Email with a trailing
space, so an Email field gets no fragment and is excluded from both; the
theorem evaluates the code at that failing input. -/
theorem c1_email_field_gets_no_fragment :
    _getKeywordByFieldType emailField = none ∧
    (getFieldsJSONSchema [emailField]).schema.properties = [] ∧
    (getFieldsJSONSchema [emailField]).schema.required = [] ∧
    _getKeywordByFieldType { emailField with type := "Email " } =
      some (.obj [("type", .str "string")]) :=
  ⟨rfl, rfl, rfl, rfl⟩

/-- C4: the claim states that uploadFileToSpace falls back to a time-stamped
default name when the URL path has no final segment.  For a bare slash path
the split-and-pop expression yields the empty string, not undefined, so the
nullish-coalescing fallback never fires and the derived file name is empty;
the theorem evaluates the code at that failing input. -/
theorem c4_upload_name_empty_for_bare_slash_path :
    ∀ timestampMs : Nat,
      uploadFileName none "/" timestampMs = "" ∧
      "" ≠ "file_" ++ toString timestampMs := by
  intro t
  refine ⟨rfl, ?_⟩
  intro h
  have hl := congrArg String.length h
  rw [String.length_append] at hl
  have h0 : ("" : String).length = 0 := rfl
  have h5 : ("file_" : String).length = 5 := rfl
  rw [h0, h5] at hl
  omega

/-- C9: coercing a DateTime field from the empty string yields null, and
from the date string 2024-01-01 yields an ISO-8601 UTC date-time string
(UTC midnight of that day, as toISOString renders it). -/
theorem c9_datetime_coercion :
    _getCellValueByFieldType dateTimeField (.str "") = .ok .null ∧
    _getCellValueByFieldType dateTimeField (.str "2024-01-01") =
      .ok (.str "2024-01-01T00:00:00.000Z") ∧
    isIso8601UTC "2024-01-01T00:00:00.000Z" = true :=
  ⟨rfl, rfl, rfl⟩

/-- C3: the query string and endpoint built by list_records are independent
of the filterByFormula argument: two argument records that differ only in
that component produce character-for-character identical endpoints, and the
whole handler result is unchanged as well. -/
theorem c3_list_records_ignores_filterByFormula :
    ∀ (a : ListRecordsArgs) (v : JsValue) (outcome : RemoteOutcome JsValue),
      listRecordsEndpoint { a with filterByFormula := v } = listRecordsEndpoint a ∧
      listRecordsQuery { a with filterByFormula := v } = listRecordsQuery a ∧
      listRecordsHandler { a with filterByFormula := v } outcome =
        listRecordsHandler a outcome :=
  fun _ _ _ => ⟨rfl, rfl, rfl⟩

/-- C2 counterexample: the claim states that select-typed cell values are
always expressed in option identifiers and that coercing the raw option name
of a SingleSelect field yields the option id.  Coercing the name Red of a
SingleSelect field whose matching option id is opt1 returns the name itself,
not the id. -/
theorem c2_counterexample_singleselect_keeps_name :
    _getCellValueByFieldType singleSelectField (.str "Red") = .ok (.str "Red") ∧
    singleSelectField.property.bind FieldPropertyVO.options =
      some [{ id := "opt1", name := "Red" }] ∧
    JsValue.str "Red" ≠ JsValue.str "opt1" := by
  refine ⟨rfl, rfl, ?_⟩
  intro h
  injection h with h'
  exact absurd h' (by decide)

/-- C2 amended: only MultiSelect cell values are expressed in option
identifiers (every produced element is the id of an option whose name
occurs in the raw array); SingleSelect coercion returns the stringified raw
value, i.e. the option name, unchanged. -/
theorem c2_amended_select_cell_representation :
    (∀ (f : FieldSchemaVO) (s : String), f.type = "SingleSelect" →
      _getCellValueByFieldType f (.str s) = .ok (.str s)) ∧
    (∀ (f : FieldSchemaVO) (xs : List JsValue), f.type = "MultiSelect" →
      ∃ ids : List String,
        _getCellValueByFieldType f (.arr xs) = .ok (.arr (ids.map JsValue.str)) ∧
        ∀ i ∈ ids,
          ∃ o ∈ (f.property.bind FieldPropertyVO.options).getD [],
            o.id = i ∧ JsValue.str o.name ∈ xs) := by
  constructor
  · intro f s ht
    simp only [_getCellValueByFieldType]
    rw [if_pos (Or.inr (Or.inr (Or.inr (Or.inr (Or.inr ht)))))]
    rfl
  · intro f xs ht
    obtain ⟨nm, ty, pr⟩ := f
    simp only at ht
    subst ht
    have h1 : ¬(("MultiSelect" : String) = "Text" ∨ ("MultiSelect" : String) = "SingleText" ∨
        ("MultiSelect" : String) = "Email" ∨ ("MultiSelect" : String) = "URL" ∨
        ("MultiSelect" : String) = "Phone" ∨ ("MultiSelect" : String) = "SingleSelect") := by
      decide
    have h2 : ¬(("MultiSelect" : String) = "Checkbox") := by decide
    have h3 : ¬(("MultiSelect" : String) ∈ ["Number", "Currency", "Percent", "Rating"]) := by
      decide
    have h5 : ¬(("MultiSelect" : String) = "DateTime") := by decide
    simp only [_getCellValueByFieldType]
    rw [if_neg h1, if_neg h2, if_neg h3, if_neg h5]
    rw [if_pos trivial]
    refine ⟨_, rfl, ?_⟩
    intro i hi
    rw [List.mem_filterMap] at hi
    obtain ⟨a, ha, hg⟩ := hi
    cases a with
    | str s =>
      have hg2 : Option.map SelectFieldOptionVO.id
          (List.find? (fun o => decide (o.name = s))
            ((pr.bind FieldPropertyVO.options).getD [])) = some i := hg
      cases hfind : List.find? (fun o => decide (o.name = s))
          ((pr.bind FieldPropertyVO.options).getD []) with
      | none => rw [hfind] at hg2; exact absurd hg2 (by simp)
      | some o =>
        rw [hfind] at hg2
        rw [Option.map_some'] at hg2
        injection hg2 with hg2
        refine ⟨o, List.mem_of_find?_eq_some hfind, hg2, ?_⟩
        have hp := List.find?_some hfind
        have hname : o.name = s := by simpa using hp
        rw [hname]
        exact ha
    | undef => exact Option.noConfusion hg
    | null => exact Option.noConfusion hg
    | nan => exact Option.noConfusion hg
    | num n => exact Option.noConfusion hg
    | bool b => exact Option.noConfusion hg
    | arr es => exact Option.noConfusion hg
    | obj fs => exact Option.noConfusion hg

/-- Witness for the amended C2 theorem at concrete fields and raw values. -/
theorem c2_amended_select_cell_representation_witness :
    _getCellValueByFieldType singleSelectField (.str "Blue") = .ok (.str "Blue") ∧
    ∃ ids : List String,
      _getCellValueByFieldType multiSelectField (.arr [.str "Red"]) =
        .ok (.arr (ids.map JsValue.str)) ∧
      ∀ i ∈ ids,
        ∃ o ∈ (multiSelectField.property.bind FieldPropertyVO.options).getD [],
          o.id = i ∧ JsValue.str o.name ∈ [JsValue.str "Red"] :=
  ⟨c2_amended_select_cell_representation.1 singleSelectField "Blue" rfl,
    c2_amended_select_cell_representation.2 multiSelectField [JsValue.str "Red"] rfl⟩

/-- C8: coercing the raw array of names Red and Green against the MultiSelect
field whose options are o1 mapping Red and o2 mapping Blue yields exactly the
id list o1; in general every matched name is replaced by its option id via
exact name match with unmatched names dropped, and a single raw string is
wrapped into a one-element id list or an empty list when unmatched. -/
theorem c8_multiselect_name_to_id_mapping :
    (_getCellValueByFieldType multiSelectField (.arr [.str "Red", .str "Green"]) =
      .ok (.arr [.str "o1"])) ∧
    (∀ (f : FieldSchemaVO) (opts : List SelectFieldOptionVO),
      f.type = "MultiSelect" →
      f.property.bind FieldPropertyVO.options = some opts →
      (∀ names : List String,
        _getCellValueByFieldType f (.arr (names.map JsValue.str)) =
          .ok (.arr ((names.filterMap (fun n =>
            (opts.find? (fun o => o.name = n)).map SelectFieldOptionVO.id)).map JsValue.str))) ∧
      (∀ s : String,
        _getCellValueByFieldType f (.str s) =
          .ok (.arr (((opts.find? (fun o => o.name = s)).map
            SelectFieldOptionVO.id).toList.map JsValue.str)))) := by
  constructor
  · rfl
  · intro f opts ht hopts
    obtain ⟨nm, ty, pr⟩ := f
    simp only at ht hopts
    subst ht
    have h1 : ¬(("MultiSelect" : String) = "Text" ∨ ("MultiSelect" : String) = "SingleText" ∨
        ("MultiSelect" : String) = "Email" ∨ ("MultiSelect" : String) = "URL" ∨
        ("MultiSelect" : String) = "Phone" ∨ ("MultiSelect" : String) = "SingleSelect") := by
      decide
    have h2 : ¬(("MultiSelect" : String) = "Checkbox") := by decide
    have h3 : ¬(("MultiSelect" : String) ∈ ["Number", "Currency", "Percent", "Rating"]) := by
      decide
    have h5 : ¬(("MultiSelect" : String) = "DateTime") := by decide
    constructor
    · intro names
      simp only [_getCellValueByFieldType]
      rw [if_neg h1, if_neg h2, if_neg h3, if_neg h5, if_pos trivial]
      rw [hopts]
      simp only [Option.getD_some]
      rw [List.filterMap_map]
      rfl
    · intro s
      simp only [_getCellValueByFieldType]
      rw [if_neg h1, if_neg h2, if_neg h3, if_neg h5, if_pos trivial]
      rw [hopts]
      simp only [Option.getD_some]
      cases hfind : opts.find? (fun o => decide (o.name = s)) with
      | some o => simp
      | none => simp

/-- Witness for C8 at further concrete raw values (a matched single name in
an array, and an unmatched single string). -/
theorem c8_multiselect_name_to_id_mapping_witness :
    _getCellValueByFieldType multiSelectField (.arr [.str "Blue"]) = .ok (.arr [.str "o2"]) ∧
    _getCellValueByFieldType multiSelectField (.str "Green") = .ok (.arr []) :=
  ⟨((c8_multiselect_name_to_id_mapping.2 multiSelectField _ rfl rfl).1 ["Blue"]).trans (by rfl),
    ((c8_multiselect_name_to_id_mapping.2 multiSelectField _ rfl rfl).2 "Green").trans (by rfl)⟩

/-- C10: buildQueryString of the empty map and of a map holding only
undefined and null values returns the empty string; in general undefined and
null entries are skipped, arrays are emitted only when non-empty as a single
JSON-encoded URL-encoded value, and the overall result is empty exactly when
no entry survives the filtering, otherwise it starts with a question mark. -/
theorem c10_buildQueryString_filtering :
    (buildQueryString [] [] = .ok "") ∧
    (buildQueryString [("a", .undef), ("b", .null)] [] = .ok "") ∧
    (∀ k : String, queryEntry k .undef = none ∧ queryEntry k .null = none) ∧
    (∀ (k : String) (xs : List JsValue), xs ≠ [] →
      queryEntry k (.arr xs) =
        some (encodeURIComponent k ++ "=" ++ encodeURIComponent (jsonStringify (.arr xs)))) ∧
    (∀ k : String, queryEntry k (.arr []) = none) ∧
    (∀ params : List (String × JsValue),
      buildQueryString params [] = .ok "" ↔
        params.filterMap (fun kv => queryEntry kv.1 kv.2) = []) ∧
    (∀ params : List (String × JsValue),
      params.filterMap (fun kv => queryEntry kv.1 kv.2) ≠ [] →
      ∃ rest, buildQueryString params [] = .ok ("?" ++ rest)) := by
  refine ⟨rfl, rfl, fun k => ⟨rfl, rfl⟩, ?_, fun k => rfl, ?_, ?_⟩
  · intro k xs h
    cases xs with
    | nil => exact absurd rfl h
    | cons x t => simp [queryEntry]
  · intro params
    simp only [buildQueryString, List.find?_nil]
    constructor
    · intro h
      injection h with h
      by_cases hq : (params.filterMap (fun kv => queryEntry kv.1 kv.2)).length > 0
      · rw [if_pos hq] at h
        exfalso
        have hlen := congrArg String.length h
        rw [String.length_append] at hlen
        have hqm : ("?" : String).length = 1 := rfl
        have hem : ("" : String).length = 0 := rfl
        rw [hqm, hem] at hlen
        omega
      · exact List.length_eq_zero.mp (by omega)
    · intro h
      rw [h]
      rfl
  · intro params h
    simp only [buildQueryString, List.find?_nil]
    have hl : (params.filterMap (fun kv => queryEntry kv.1 kv.2)).length > 0 := by
      cases hq : params.filterMap (fun kv => queryEntry kv.1 kv.2) with
      | nil => exact absurd hq h
      | cons a t => simp
    rw [if_pos hl]
    exact ⟨_, rfl⟩

/-- Witness for C10 at concrete parameter maps. -/
theorem c10_buildQueryString_filtering_witness :
    (queryEntry "sort" (.arr [.num 1]) =
      some (encodeURIComponent "sort" ++ "=" ++
        encodeURIComponent (jsonStringify (.arr [.num 1])))) ∧
    (buildQueryString [("pageNum", .num 1)] [] = .ok "" ↔
      [(("pageNum" : String), JsValue.num 1)].filterMap (fun kv => queryEntry kv.1 kv.2) = []) ∧
    (∃ rest, buildQueryString [("pageNum", .num 1)] [] = .ok ("?" ++ rest)) :=
  ⟨c10_buildQueryString_filtering.2.2.2.1 "sort" [.num 1] (by simp),
    c10_buildQueryString_filtering.2.2.2.2.2.1 [("pageNum", .num 1)],
    c10_buildQueryString_filtering.2.2.2.2.2.2 [("pageNum", .num 1)] (by decide)⟩

/-- The required list accumulated by the schema fold is the name list of the
fields that received a fragment, in input order, appended to the
accumulator. -/
theorem foldl_schemaFold_required (fields : List FieldSchemaVO) :
    ∀ acc : List (String × JsValue) × List String,
      (fields.foldl schemaFold acc).2 =
        acc.2 ++ (fields.filter (fun f => (_getKeywordByFieldType f).isSome)).map
          FieldSchemaVO.name := by
  induction fields with
  | nil => intro acc; simp
  | cons f fs ih =>
    intro acc
    rw [List.foldl_cons, List.filter_cons]
    cases h : _getKeywordByFieldType f with
    | none =>
      have hstep : schemaFold acc f = acc := by simp [schemaFold, h]
      rw [hstep, ih]
      simp [h]
    | some kw =>
      have hstep : schemaFold acc f = (jsObjectSet acc.1 f.name kw, acc.2 ++ [f.name]) := by
        simp [schemaFold, h]
      rw [hstep, ih]
      simp [h]

/-- C5: the claim ties inclusion in the generated document to membership of
the field type in the supported enumeration.  The required list actually
tracks exactly the fields whose fragment is non-null, and because the
source's string group tests the tag Email with a trailing space, a field of
the enumerated type Email is excluded from both properties and required,
while the unenumerated tag consisting of Email plus a space is included;
the theorem evaluates the code at the failing input and characterizes the
actual required list. -/
theorem c5_required_tracks_fragments_not_spec_enumeration :
    ("Email" ∈ specSupportedFieldTypes) ∧
    (_getKeywordByFieldType emailField = none) ∧
    ((getFieldsJSONSchema [emailField]).schema.required = []) ∧
    ((getFieldsJSONSchema [emailField]).schema.properties = []) ∧
    ("Email " ∉ specSupportedFieldTypes) ∧
    ((_getKeywordByFieldType { emailField with type := "Email " }).isSome = true) ∧
    (∀ fields : List FieldSchemaVO,
      (getFieldsJSONSchema fields).schema.required =
        (fields.filter (fun f => (_getKeywordByFieldType f).isSome)).map
          FieldSchemaVO.name) := by
  refine ⟨by decide, rfl, rfl, rfl, by decide, rfl, ?_⟩
  intro fields
  exact foldl_schemaFold_required fields ([], [])

/-- C7: whenever the schema-fetch outcome of create_record is a failure (a
thrown transport error or a decoded envelope with success false), the
record-write call is never issued and the handler returns an error
envelope. -/
theorem c7_schema_failure_blocks_write :
    ∀ (node_id : String) (fields attachments_fields : Option (List (String × JsValue)))
      (schemaOutcome : RemoteOutcome (List FieldSchemaVO))
      (writeOutcome : RemoteOutcome JsValue),
      remoteOutcomeFailed schemaOutcome →
      (∀ (n : String) (cells : List (String × JsValue)),
        RemoteCall.createRecord n cells ∉
          (createRecordHandler node_id fields attachments_fields schemaOutcome
            writeOutcome).2) ∧
      (∃ m, (createRecordHandler node_id fields attachments_fields schemaOutcome
          writeOutcome).1 = errResp m) := by
  intro nid f att so wo hfail
  unfold createRecordHandler
  by_cases h1 : nid = ""
  · rw [if_pos h1]
    exact ⟨fun n cells => by simp, ⟨_, rfl⟩⟩
  · rw [if_neg h1]
    by_cases h2 : f.isNone ∧ att.isNone
    · rw [if_pos h2]
      exact ⟨fun n cells => by simp, ⟨_, rfl⟩⟩
    · rw [if_neg h2]
      cases so with
      | error e =>
        exact ⟨fun n cells => by simp, ⟨_, rfl⟩⟩
      | ok r =>
        have hr : r.success = false := hfail
        simp only [hr]
        exact ⟨fun n cells => by simp, ⟨_, rfl⟩⟩

/-- Witness for C7 at a concrete failing schema fetch. -/
theorem c7_schema_failure_blocks_write_witness :
    (RemoteCall.createRecord "dst" [] ∉
      (createRecordHandler "dst" (some []) none (.error "network down")
        (.ok ⟨true, none, JsValue.null⟩)).2) ∧
    (∃ m, (createRecordHandler "dst" (some []) none (.error "network down")
        (.ok ⟨true, none, JsValue.null⟩)).1 = errResp m) :=
  ⟨(c7_schema_failure_blocks_write "dst" (some []) none (.error "network down")
      (.ok ⟨true, none, JsValue.null⟩) trivial).1 "dst" [],
    (c7_schema_failure_blocks_write "dst" (some []) none (.error "network down")
      (.ok ⟨true, none, JsValue.null⟩) trivial).2⟩

/-- C6: every tool action returns an envelope.  For each of the six handlers,
any failure (validation failure or failed remote outcome) produces an error
envelope with success false, a message, the isError flag and no data member;
and every possible result is either such an error envelope or a success
envelope, so no exception escapes the boundary and no partial data
accompanies a failure. -/
theorem c6_tool_actions_return_error_envelopes :
    (∀ o : RemoteOutcome JsValue,
      remoteOutcomeFailed o → isErrorEnvelope (listSpacesHandler o)) ∧
    (∀ o : RemoteOutcome JsValue,
      isErrorEnvelope (listSpacesHandler o) ∨ isSuccessEnvelope (listSpacesHandler o)) ∧
    (∀ (sid nt : String) (q : Option String) (o : RemoteOutcome (List JsValue)),
      sid = "" ∨ nt = "" ∨ remoteOutcomeFailed o →
      isErrorEnvelope (searchNodesHandler sid nt q o)) ∧
    (∀ (sid nt : String) (q : Option String) (o : RemoteOutcome (List JsValue)),
      isErrorEnvelope (searchNodesHandler sid nt q o) ∨
        isSuccessEnvelope (searchNodesHandler sid nt q o)) ∧
    (∀ (a : ListRecordsArgs) (o : RemoteOutcome JsValue),
      a.node_id = "" ∨ remoteOutcomeFailed o → isErrorEnvelope (listRecordsHandler a o)) ∧
    (∀ (a : ListRecordsArgs) (o : RemoteOutcome JsValue),
      isErrorEnvelope (listRecordsHandler a o) ∨ isSuccessEnvelope (listRecordsHandler a o)) ∧
    (∀ (nid : String) (o : RemoteOutcome (List FieldSchemaVO)),
      nid = "" ∨ remoteOutcomeFailed o → isErrorEnvelope (getFieldsSchemaHandler nid o)) ∧
    (∀ (nid : String) (o : RemoteOutcome (List FieldSchemaVO)),
      isErrorEnvelope (getFieldsSchemaHandler nid o) ∨
        isSuccessEnvelope (getFieldsSchemaHandler nid o)) ∧
    (∀ (nid : String) (f att : Option (List (String × JsValue)))
        (so : RemoteOutcome (List FieldSchemaVO)) (wo : RemoteOutcome JsValue),
      nid = "" ∨ (f = none ∧ att = none) ∨ remoteOutcomeFailed so ∨ remoteOutcomeFailed wo →
      isErrorEnvelope (createRecordHandler nid f att so wo).1) ∧
    (∀ (nid : String) (f att : Option (List (String × JsValue)))
        (so : RemoteOutcome (List FieldSchemaVO)) (wo : RemoteOutcome JsValue),
      isErrorEnvelope (createRecordHandler nid f att so wo).1 ∨
        isSuccessEnvelope (createRecordHandler nid f att so wo).1) ∧
    (∀ (nid url : String) (name : Option String) (o : RemoteOutcome JsValue),
      nid = "" ∨ url = "" ∨ remoteOutcomeFailed o →
      isErrorEnvelope (uploadAttachmentHandler nid url name o)) ∧
    (∀ (nid url : String) (name : Option String) (o : RemoteOutcome JsValue),
      isErrorEnvelope (uploadAttachmentHandler nid url name o) ∨
        isSuccessEnvelope (uploadAttachmentHandler nid url name o)) := by
  refine ⟨?_, ?_, ?_, ?_, ?_, ?_, ?_, ?_, ?_, ?_, ?_, ?_⟩
  · intro o hf
    unfold listSpacesHandler
    cases o with
    | error e => exact ⟨_, rfl⟩
    | ok r =>
      have hr : r.success = false := hf
      simp only [hr]
      exact ⟨_, rfl⟩
  · intro o
    unfold listSpacesHandler
    repeat' split
    all_goals first
      | exact Or.inl ⟨_, rfl⟩
      | exact Or.inr ⟨_, rfl⟩
  · intro sid nt q o hf
    unfold searchNodesHandler
    repeat' split
    all_goals first
      | exact ⟨_, rfl⟩
      | (rcases hf with h | h | h <;> simp_all [remoteOutcomeFailed])
  · intro sid nt q o
    unfold searchNodesHandler
    repeat' split
    all_goals first
      | exact Or.inl ⟨_, rfl⟩
      | exact Or.inr ⟨_, rfl⟩
  · intro a o hf
    unfold listRecordsHandler
    repeat' split
    all_goals first
      | exact ⟨_, rfl⟩
      | (rcases hf with h | h <;> simp_all [remoteOutcomeFailed])
  · intro a o
    unfold listRecordsHandler
    repeat' split
    all_goals first
      | exact Or.inl ⟨_, rfl⟩
      | exact Or.inr ⟨_, rfl⟩
  · intro nid o hf
    unfold getFieldsSchemaHandler
    repeat' split
    all_goals first
      | exact ⟨_, rfl⟩
      | (rcases hf with h | h <;> simp_all [remoteOutcomeFailed])
  · intro nid o
    unfold getFieldsSchemaHandler
    repeat' split
    all_goals first
      | exact Or.inl ⟨_, rfl⟩
      | exact Or.inr ⟨_, rfl⟩
  · intro nid f att so wo hf
    unfold createRecordHandler
    dsimp only
    repeat' split
    all_goals first
      | exact ⟨_, rfl⟩
      | (rcases hf with h | ⟨hfn, han⟩ | h | h <;>
          simp_all [remoteOutcomeFailed, Option.isNone])
  · intro nid f att so wo
    unfold createRecordHandler
    dsimp only
    repeat' split
    all_goals first
      | exact Or.inl ⟨_, rfl⟩
      | exact Or.inr ⟨_, rfl⟩
  · intro nid url name o hf
    unfold uploadAttachmentHandler
    repeat' split
    all_goals first
      | exact ⟨_, rfl⟩
      | (rcases hf with h | h | h <;> simp_all [remoteOutcomeFailed])
  · intro nid url name o
    unfold uploadAttachmentHandler
    repeat' split
    all_goals first
      | exact Or.inl ⟨_, rfl⟩
      | exact Or.inr ⟨_, rfl⟩

/-- Witness for C6: one concrete failing invocation per tool handler. -/
theorem c6_tool_actions_return_error_envelopes_witness :
    isErrorEnvelope (listSpacesHandler (.error "connection refused")) ∧
    isErrorEnvelope (searchNodesHandler "" "Datasheet" none (.ok ⟨true, none, []⟩)) ∧
    isErrorEnvelope (listRecordsHandler
      ⟨"dst", .undef, .num 1, .num 20, .undef, .undef, .undef⟩
      (.ok ⟨false, some "server error", .null⟩)) ∧
    isErrorEnvelope (getFieldsSchemaHandler "dst" (.error "timeout")) ∧
    isErrorEnvelope (createRecordHandler "dst" none none (.ok ⟨true, none, []⟩)
      (.ok ⟨true, none, .null⟩)).1 ∧
    isErrorEnvelope (uploadAttachmentHandler "dst" "" none (.ok ⟨true, none, .null⟩)) :=
  ⟨c6_tool_actions_return_error_envelopes.1 _ trivial,
    c6_tool_actions_return_error_envelopes.2.2.1 "" "Datasheet" none _ (Or.inl rfl),
    c6_tool_actions_return_error_envelopes.2.2.2.2.1 _ _ (Or.inr rfl),
    c6_tool_actions_return_error_envelopes.2.2.2.2.2.2.1 "dst" _ (Or.inr trivial),
    c6_tool_actions_return_error_envelopes.2.2.2.2.2.2.2.2.1 "dst" none none _ _
      (Or.inr (Or.inl ⟨rfl, rfl⟩)),
    c6_tool_actions_return_error_envelopes.2.2.2.2.2.2.2.2.2.2.1 "dst" "" none _
      (Or.inr (Or.inl rfl))⟩
